import Mathlib

/-
Verification development for the prefoil airfoil engine
(src/prefoil/airfoil.py).

The Python source manipulates an airfoil as a parametric spline curve
supplied by the external pyspline library, together with numerical
routines from numpy/scipy (brentq, minimize, trig, sqrt).  Following the
spec, the external curve library and the numerical primitives are treated
as supplied capabilities: they are collected in a `Kit` structure whose
fields are abstract functions.  The airfoil code itself (orientation
fixing, feature extraction, camber/thickness sampling, trailing-edge
editing, caching) is embedded as pure Lean functions over that kit.

Machine floats are modelled by an arbitrary linear ordered field `F`
(instantiated at `ℝ` for the claims that need genuine trigonometry, and
at `ℚ` in executable witnesses).
-/

namespace Prefoil

variable {F : Type} [LinearOrderedField F]

/-- Planar point, mirroring an ndarray row of shape [2]. -/
abbrev Pt (F : Type) := F × F

/-- Componentwise addition of two points. -/
def padd (p q : Pt F) : Pt F := (p.1 + q.1, p.2 + q.2)

/-- Componentwise subtraction of two points. -/
def psub (p q : Pt F) : Pt F := (p.1 - q.1, p.2 - q.2)

/-- Scalar multiple of a point. -/
def psmul (c : F) (p : Pt F) : Pt F := (c * p.1, c * p.2)

/-- Division of a point by a scalar (numpy broadcast `v / c`). -/
def pdivs (p : Pt F) (c : F) : Pt F := (p.1 / c, p.2 / c)

/-- Halving a point, as in `(a + b) / 2`. -/
def phalf (p : Pt F) : Pt F := (p.1 / 2, p.2 / 2)

/-- Dot product of two planar vectors. -/
def pdot (p q : Pt F) : F := p.1 * q.1 + p.2 * q.2

/-!  Shoelace signed-area sum, as accumulated by `Airfoil.reorder`
(airfoil.py lines 110-121): `area += (x i - x (i-1)) * (y i + y (i-1))`
for `i` in `range(N)`, where index `-1` wraps to the last row.  -/

/-- Contribution of one directed edge to the reorder area sum:
`(cur.x - prev.x) * (cur.y + prev.y)`. -/
def shoelaceTerm (p q : Pt F) : F := (q.1 - p.1) * (q.2 + p.2)

/-- Sum of `shoelaceTerm` along the edges of a path starting at `x`. -/
def pathSum : Pt F → List (Pt F) → F
  | _, [] => 0
  | x, q :: r => shoelaceTerm x q + pathSum q r

/-- The signed-area sum computed by `Airfoil.reorder`: the cyclic
`shoelaceTerm` sum over consecutive coordinate pairs, wrapping from the
last row back to the first.  A positive value means clockwise winding. -/
def reorderArea : List (Pt F) → F
  | [] => 0
  | a :: t => pathSum (t.getLastD a) (a :: t)

/-!  Domain errors (`prefoil.utils.io_utils.Error` carries a message) and
the warnings emitted by `makeBluntTE`.  `Err.fuel` is the extra outcome of
the fuelled embedding of the recursive `recompute`; the Python code has no
such error (it would simply keep recursing).  -/

/-- Domain error: either fuel exhaustion of the embedded recursion, or a
raised `Error(msg)`. -/
inductive Err where
  | fuel : Err
  | user : String → Err
deriving DecidableEq

/-- The two non-fatal warnings `makeBluntTE` can emit. -/
inductive Warn where
  | topNotCut : Warn
  | bottomNotCut : Warn
deriving DecidableEq

/-- Result of `scipy.optimize.minimize`: convergence flag and optimizer. -/
structure MinResult (F : Type) where
  success : Bool
  x : F

/-- External parametric curve (pyspline `Curve`): raw fitted point set and
evaluation of position/first/second derivative at a parameter. -/
structure Curve (F : Type) where
  X : List (Pt F)
  getValue : F → Pt F
  getDerivative : F → Pt F
  getSecondDerivative : F → Pt F

/-- The supplied external capabilities: pyspline curve construction,
splitting and projection, scipy root-finding/minimization, numpy
numerics, and the sampling collaborator (`prefoil.sampling`). -/
structure Kit (F : Type) where
  pi : F
  cos : F → F
  sin : F → F
  arccos : F → F
  atan2 : F → F → F
  sqrt : F → F
  eps : F
  fitInterp : ℕ → List (Pt F) → Curve F
  fitLMS : ℕ → ℕ → List (Pt F) → Curve F
  fromCtl : List F → ℕ → List (Pt F) → Curve F
  splitCurve : Curve F → F → Curve F × Curve F
  projectCurve : Curve F → Curve F → ℕ → F → Option (F × F) → F
  brentq : (F → F) → F → F → F
  minimize : String → (F → F) → F → Option (F → F) → List (F × F) → MinResult F
  joinedSpacing : ℕ → F → List F

/-- Constructor arguments held by the airfoil: spline order and the
optional LMS control-point count. -/
structure Params where
  spline_order : ℕ
  nCtl : Option ℕ

/-- Conversion `np.deg2rad`. -/
def deg2rad (K : Kit F) (d : F) : F := d * K.pi / 180

/-- Conversion `np.rad2deg`. -/
def rad2deg (K : Kit F) (r : F) : F := r * 180 / K.pi

/-- Euclidean norm `np.linalg.norm` of a planar vector. -/
def norm2 (K : Kit F) (p : Pt F) : F := K.sqrt (p.1 ^ 2 + p.2 ^ 2)

/-- Normalization `direction / np.linalg.norm(direction)`. -/
def normalizePt (K : Kit F) (p : Pt F) : Pt F := pdivs p (norm2 K p)

/-- Airfoil.getTE: midpoint of the spline values at s=0 and s=1. -/
def getTE (spline : Curve F) : Pt F := phalf (padd (spline.getValue 0) (spline.getValue 1))

/-- The objective whose root locates the LE (`dellds` in Airfoil.getLE):
`dx * dxds + dy * dyds` for the offset from the TE. -/
def dellds (spline : Curve F) (TE : Pt F) (s : F) : F :=
  let pt := spline.getValue s
  let dv := spline.getDerivative s
  (pt.1 - TE.1) * dv.1 + (pt.2 - TE.2) * dv.2

/-- Airfoil.getLE: bracketed root-finding of `dellds` on [0.3, 0.7]. -/
def getLE (K : Kit F) (spline : Curve F) (TE : Pt F) : Pt F × F :=
  let s_LE := K.brentq (dellds spline TE) (3 / 10) (7 / 10)
  (spline.getValue s_LE, s_LE)

/-- Airfoil.getTwist: `arctan2` of the TE-LE vector, in degrees. -/
def getTwist (K : Kit F) (TE LE : Pt F) : F :=
  let chord_vec := psub TE LE
  K.atan2 chord_vec.2 chord_vec.1 * 180 / K.pi

/-- Airfoil.getChord: distance between the leading and trailing edges. -/
def getChord (K : Kit F) (TE LE : Pt F) : F := norm2 K (psub TE LE)

/-- Airfoil.getTEThickness: distance between spline values at s=0, s=1. -/
def getTEThickness (K : Kit F) (spline : Curve F) : F :=
  let top := spline.getValue 0
  let bottom := spline.getValue 1
  K.sqrt ((top.1 - bottom.1) ^ 2 + (top.2 - bottom.2) ^ 2)

/-- Airfoil.getTEAngle: pi minus the angle between the unit tangents at
s=0 and s=1, converted to degrees. -/
def getTEAngle (K : Kit F) (spline : Curve F) : F :=
  let top := spline.getDerivative 0
  let topn := pdivs top (norm2 K top)
  let bottom := spline.getDerivative 1
  let bottomn := pdivs bottom (norm2 K bottom)
  rad2deg K (K.pi - K.arccos (pdot topn bottomn))

/-- Ray direction used by `getCDistribution` (airfoil.py lines 319-321)
and by `makeBluntTE` (line 774): angle `pi/2 + deg2rad(twist)`. -/
def chordNormalDirection (K : Kit F) (twist : F) : Pt F :=
  (K.cos (K.pi / 2 + deg2rad K twist), K.sin (K.pi / 2 + deg2rad K twist))

/-- Ray direction used by the "british" branch of `getThickness`
(airfoil.py lines 374-376): angle `pi/2 - deg2rad(twist)`. -/
def britishRayDirection (K : Kit F) (twist : F) : Pt F :=
  (K.cos (K.pi / 2 - deg2rad K twist), K.sin (K.pi / 2 - deg2rad K twist))

/-- Ray direction used by the "american" branch of `getThickness`:
perpendicular to the local camber tangent. -/
def americanRayDirection (camber : Curve F) (s : F) : Pt F :=
  let dx := camber.getDerivative s
  (-dx.2, dx.1)

/-- Interior sample grid `np.linspace(0, 1, nPts - 1, endpoint=False)[1:]`:
the `nPts - 2` points `i / (nPts - 1)` for `i = 1 .. nPts - 2`. -/
def linInterior (nPts : ℕ) : List F :=
  (List.range (nPts - 2)).map (fun i : ℕ => ((i : F) + 1) / ((nPts : F) - 1))

/-- One camber point of `Airfoil.getCDistribution`: shoot a chord-normal
ray of half-length `chord` through the chord point `cp`, project it onto
the top and bottom surface halves, and take the midpoint of the two
intersections. -/
def cDistributionPoint (K : Kit F) (top_surf bottom_surf : Curve F) (chord twist : F)
    (cp : Pt F) : Pt F :=
  let direction := normalizePt K (chordNormalDirection K twist)
  let top := padd cp (psmul (1 * chord) direction)
  let bottom := psub cp (psmul (1 * chord) direction)
  let normal := K.fitInterp 2 [top, bottom]
  let s_top := K.projectCurve top_surf normal 5000 K.eps none
  let s_bottom := K.projectCurve bottom_surf normal 5000 K.eps none
  phalf (padd (top_surf.getValue s_top) (bottom_surf.getValue s_bottom))

/-- Airfoil.getCDistribution: LE, then the interior camber points at the
`linInterior` chord stations, then TE. -/
def getCDistribution (K : Kit F) (spline : Curve F) (s_LE : F) (LE TE : Pt F)
    (chord twist : F) (nPts : ℕ) : List (Pt F) :=
  let surfs := K.splitCurve spline s_LE
  let chordCurve := K.fitInterp 2 [LE, TE]
  let chord_pts := (linInterior (F := F) nPts).map chordCurve.getValue
  let camber_pts := chord_pts.map (cDistributionPoint K surfs.1 surfs.2 chord twist)
  LE :: (camber_pts ++ [TE])

/-- One interior thickness point of `Airfoil.getThickness` at camber
parameter `s`: ray of half-length `10 * chord` through the camber point,
guess-seeded projections onto the two halves, then either the y-difference
("british") or the distance ("american") of the two intersections,
reported at the camber x-position. -/
def thicknessPoint (K : Kit F) (top_surf bottom_surf camber : Curve F) (LE : Pt F)
    (chord twist : F) (tType : String) (s : F) : Pt F :=
  let direction := if tType = "british" then britishRayDirection K twist
    else americanRayDirection camber s
  let direction := normalizePt K direction
  let top := padd (camber.getValue s) (psmul (10 * chord) direction)
  let bottom := psub (camber.getValue s) (psmul (10 * chord) direction)
  let normal := K.fitInterp 2 [top, bottom]
  let s_guess := ((normal.getValue (1 / 2)).1 - LE.1) / chord
  let guesses : F × F :=
    if s_guess > 1 then (0, 1)
    else if s_guess < 0 then (1, 0)
    else (1 - s_guess, s_guess)
  let s_top := K.projectCurve top_surf normal 100 K.eps (some (guesses.1, 1 / 2))
  let s_bottom := K.projectCurve bottom_surf normal 100 K.eps (some (guesses.2, 1 / 2))
  if tType = "british" then
    ((camber.getValue s).1, (top_surf.getValue s_top).2 - (bottom_surf.getValue s_bottom).2)
  else
    ((camber.getValue s).1, norm2 K (psub (top_surf.getValue s_top) (bottom_surf.getValue s_bottom)))

/-- The point list built by `Airfoil.getThickness` once the thickness-type
keyword has been validated: `(LE.x, 0)`, the interior thickness points,
then `(TE.x, TE thickness)`. -/
def thicknessList (K : Kit F) (spline : Curve F) (s_LE : F) (LE TE : Pt F)
    (camber : Curve F) (chord twist : F) (nPts : ℕ) (tType : String) : List (Pt F) :=
  let surfs := K.splitCurve spline s_LE
  let pts := (linInterior (F := F) nPts).map
    (thicknessPoint K surfs.1 surfs.2 camber LE chord twist tType)
  (LE.1, 0) :: (pts ++ [(TE.1, getTEThickness K spline)])

/-- Error message raised for an unsupported thickness-type keyword. -/
def errInvalidType : Err := Err.user "Do not recognize thickness type!"

/-- Error message raised when the max-thickness optimizer fails. -/
def errNoMaxThickness : Err := Err.user "Could not determine the maximum thickness."

/-- Error message raised by sharpenTE/roundTE for an out-of-range xCut. -/
def errXCutRange : Err := Err.user "xCut must be between 0 and 1."

/-- Error message raised by sharpenTE for parallel TE slopes. -/
def errParallelSlopes : Err :=
  Err.user "Slopes at blunt TE are parallel, no intersection point for a sharp TE."

/-- Error message raised by sharpenTE when the intersection would lie
towards the LE. -/
def errTowardsLE : Err :=
  Err.user "Slopes at blunt TE indicate an intersection towards the LE of the airfoil."

/-- Derived state of an `Airfoil` instance: the attributes set by
`recompute` (plus the sampled-points cache). -/
structure AirfoilState (F : Type) where
  spline : Curve F
  TE : Pt F
  LE : Pt F
  s_LE : F
  chord : F
  twist : F
  closedCurve : Bool
  sampled_pts : Option (List (Pt F))
  camber : Curve F
  british_thickness : Curve F
  american_thickness : Curve F

/-- Exact coincidence test of the first and last coordinate rows
(`(coords[0, :] == coords[-1, :]).all()`). -/
def closedCheck (coords : List (Pt F)) : Bool :=
  match coords.head?, coords.getLast? with
  | some a, some b => decide (a = b)
  | _, _ => false

/-- The straight-line part of `Airfoil.recompute` after `reorder` has
returned: derive TE, LE, chord, twist, closedness, clear the cache, and
rebuild the camber and thickness curves with sample density
`coords.size` (the total element count `2 * N` of the `[N, 2]` array). -/
def deriveState (K : Kit F) (spline : Curve F) (coords : List (Pt F)) : AirfoilState F :=
  let TEp := getTE spline
  let LEs := getLE K spline TEp
  let chord := getChord K TEp LEs.1
  let twist := getTwist K TEp LEs.1
  let nSample := 2 * coords.length
  let camber_pts := getCDistribution K spline LEs.2 LEs.1 TEp chord twist nSample
  let camber := K.fitInterp 3 camber_pts
  let brit := K.fitInterp 3 (thicknessList K spline LEs.2 LEs.1 TEp camber chord twist nSample "british")
  let amer := K.fitInterp 3 (thicknessList K spline LEs.2 LEs.1 TEp camber chord twist nSample "american")
  { spline := spline, TE := TEp, LE := LEs.1, s_LE := LEs.2, chord := chord, twist := twist,
    closedCurve := closedCheck coords, sampled_pts := none,
    camber := camber, british_thickness := brit, american_thickness := amer }

/-- The spline construction at the top of `Airfoil.recompute`:
interpolation, or least-mean-squares when a control-point count is set. -/
def fitSpline (K : Kit F) (P : Params) (coords : List (Pt F)) : Curve F :=
  match P.nCtl with
  | some n => K.fitLMS P.spline_order n coords
  | none => K.fitInterp P.spline_order coords

/-- Airfoil.recompute together with the mutually recursive
`Airfoil.reorder`: fit the spline, test the shoelace sum of the fitted
point set, recurse on the reversed rows if it is positive (clockwise),
then derive all state from the resulting spline.  The recursion of the
Python code is bounded here by explicit fuel; `Err.fuel` stands for
non-termination, which never occurs with fuel at least 2 when fitting
preserves the point set. -/
def recomputeCore (K : Kit F) (P : Params) : ℕ → List (Pt F) → Except Err (AirfoilState F)
  | 0, _ => .error Err.fuel
  | fuel + 1, coords =>
    if reorderArea (fitSpline K P coords).X > 0 then
      match recomputeCore K P fuel (fitSpline K P coords).X.reverse with
      | .error e => .error e
      | .ok stInner => .ok (deriveState K stInner.spline coords)
    else
      .ok (deriveState K (fitSpline K P coords) coords)

namespace Airfoil

/-- Method `getCDistribution` on the current state. -/
def getCDistribution (K : Kit F) (st : AirfoilState F) (nPts : ℕ) : List (Pt F) :=
  Prefoil.getCDistribution K st.spline st.s_LE st.LE st.TE st.chord st.twist nPts

/-- Method `getThickness` on the current state: validates the
thickness-type keyword, then samples the thickness distribution. -/
def getThickness (K : Kit F) (st : AirfoilState F) (nPts : ℕ) (tType : String) :
    Except Err (List (Pt F)) :=
  if tType ≠ "american" ∧ tType ≠ "british" then .error errInvalidType
  else .ok (thicknessList K st.spline st.s_LE st.LE st.TE st.camber st.chord st.twist nPts tType)

/-- Objective `american_f` of `getMaxThickness`. -/
def americanObj (st : AirfoilState F) : F → F := fun s => -(st.american_thickness.getValue s).2

/-- Gradient `american_df` of `getMaxThickness`. -/
def americanJac (st : AirfoilState F) : F → F := fun s => -(st.american_thickness.getDerivative s).2

/-- Objective `british_f` of `getMaxThickness`. -/
def britishObj (st : AirfoilState F) : F → F := fun s => -(st.british_thickness.getValue s).2

/-- Gradient `british_df` of `getMaxThickness`. -/
def britishJac (st : AirfoilState F) : F → F := fun s => -(st.british_thickness.getDerivative s).2

/-- Method `getMaxThickness`: validate the keyword, run the bounded SLSQP
minimization of the negated thickness curve, fail on non-convergence,
else return the x-station and thickness at the optimizer. -/
def getMaxThickness (K : Kit F) (st : AirfoilState F) (tType : String) :
    Except Err (F × F) :=
  if tType ≠ "american" ∧ tType ≠ "british" then .error errInvalidType
  else if tType = "american" then
    let opt := K.minimize "SLSQP" (americanObj st) (1 / 2) (some (americanJac st)) [(0, 1)]
    if opt.success = false then .error errNoMaxThickness
    else
      let p := st.american_thickness.getValue opt.x
      .ok (p.1, p.2)
  else
    let opt := K.minimize "SLSQP" (britishObj st) (1 / 2) (some (britishJac st)) [(0, 1)]
    if opt.success = false then .error errNoMaxThickness
    else
      let p := st.british_thickness.getValue opt.x
      .ok (p.1, p.2)

/-- Modelled from the spec: `prefoil.utils.geom_ops._rotateCoords` is not
under src/.  Rigid rotation of every coordinate about `origin` by `angle`
radians. -/
def rotateCoords (K : Kit F) (coords : List (Pt F)) (angle : F) (origin : Pt F) :
    List (Pt F) :=
  coords.map fun p =>
    let q := psub p origin
    padd origin (q.1 * K.cos angle - q.2 * K.sin angle, q.1 * K.sin angle + q.2 * K.cos angle)

/-- Modelled from the spec: `prefoil.utils.geom_ops._scaleCoords` is not
under src/.  Scaling of every coordinate about `origin` by `factor`. -/
def scaleCoords (coords : List (Pt F)) (factor : F) (origin : Pt F) : List (Pt F) :=
  coords.map fun p => padd origin (psmul factor (psub p origin))

/-- Modelled from the spec: `prefoil.utils.geom_ops._translateCoords` is
not under src/.  Translation of every coordinate by `delta`. -/
def translateCoords (coords : List (Pt F)) (delta : Pt F) : List (Pt F) :=
  coords.map fun p => padd p delta

/-- Method `rotate`: rotate the spline points and recompute. -/
def rotate (K : Kit F) (P : Params) (fuel : ℕ) (st : AirfoilState F) (angle : F)
    (origin : Pt F) : Except Err (AirfoilState F) :=
  recomputeCore K P fuel (rotateCoords K st.spline.X (deg2rad K angle) origin)

/-- Method `scale`: scale the spline points and recompute. -/
def scale (K : Kit F) (P : Params) (fuel : ℕ) (st : AirfoilState F) (factor : F)
    (origin : Pt F) : Except Err (AirfoilState F) :=
  recomputeCore K P fuel (scaleCoords st.spline.X factor origin)

/-- Method `translate`: translate the spline points and recompute. -/
def translate (K : Kit F) (P : Params) (fuel : ℕ) (st : AirfoilState F) (delta : Pt F) :
    Except Err (AirfoilState F) :=
  recomputeCore K P fuel (translateCoords st.spline.X delta)

/-- The intersection parameters and the new coordinate list assembled by
`makeBluntTE`: cut point on the chord, chord-normal ray of half-length
`2 * chord`, guess-seeded projections onto the two halves, and retention
of the original points whose offset from the cut point projects
positively onto the chord direction. -/
def bluntData (K : Kit F) (st : AirfoilState F) (xCut top_guess bottom_guess : F) :
    (F × F) × List (Pt F) :=
  let xCut_global := padd st.LE (psmul xCut (psub st.TE st.LE))
  let direction := normalizePt K (chordNormalDirection K st.twist)
  let chord := getChord K st.TE st.LE
  let ray := [psub xCut_global (psmul (2 * chord) direction),
              padd xCut_global (psmul (2 * chord) direction)]
  let surfs := K.splitCurve st.spline st.s_LE
  let normal := K.fitInterp 2 ray
  let s_top := K.projectCurve surfs.1 normal 5000 K.eps (some (top_guess, 1 / 2))
  let s_bottom := K.projectCurve surfs.2 normal 5000 K.eps (some (bottom_guess, 1 / 2))
  let chordv := psub st.LE st.TE
  let kept := st.spline.X.filter fun x => pdot chordv (psub x xCut_global) > 0
  ((s_top, s_bottom),
    surfs.1.getValue s_top :: (kept ++ [surfs.2.getValue s_bottom]))

/-- Method `makeBluntTE`: warn (non-fatally) when the top projection
lands on parameter 0 or the bottom projection on parameter 1, then
recompute from the assembled coordinates regardless. -/
def makeBluntTE (K : Kit F) (P : Params) (fuel : ℕ) (st : AirfoilState F)
    (xCut top_guess bottom_guess : F) : List Warn × Except Err (AirfoilState F) :=
  let d := bluntData K st xCut top_guess bottom_guess
  ((if d.1.1 = 0 then [Warn.topNotCut] else []) ++
      (if d.1.2 = 1 then [Warn.bottomNotCut] else []),
    recomputeCore K P fuel d.2)

/-- The blunting step shared by `sharpenTE` and `roundTE`: blunt-cut first
when the airfoil is currently closed, with default guesses 0.5/0.5. -/
def bluntIfClosed (K : Kit F) (P : Params) (fuel : ℕ) (st : AirfoilState F) (xCut : F) :
    Except Err (AirfoilState F) :=
  if st.closedCurve then (makeBluntTE K P fuel st xCut (1 / 2) (1 / 2)).2 else .ok st

/-- Slope `dx_u` of the upper surface at the blunt TE (s = 0). -/
def teSlopeTop (st : AirfoilState F) : F :=
  (st.spline.getDerivative 0).2 / (st.spline.getDerivative 0).1

/-- Slope `dx_l` of the lower surface at the blunt TE (s = 1). -/
def teSlopeBottom (st : AirfoilState F) : F :=
  (st.spline.getDerivative 1).2 / (st.spline.getDerivative 1).1

/-- Method `sharpenTE`: validate `xCut`, blunt first if closed, intersect
the two TE tangent lines (rejecting parallel slopes and intersections
towards the LE), prepend/append the intersection point, recompute. -/
def sharpenTE (K : Kit F) (P : Params) (fuel : ℕ) (st : AirfoilState F) (xCut : F) :
    Except Err (AirfoilState F) :=
  if 1 ≤ xCut ∨ xCut ≤ 0 then .error errXCutRange
  else
    match bluntIfClosed K P fuel st xCut with
    | .error e => .error e
    | .ok s =>
      let val_u := s.spline.getValue 0
      let dx_u := teSlopeTop s
      let val_l := s.spline.getValue 1
      let dx_l := teSlopeBottom s
      if dx_u = dx_l then .error errParallelSlopes
      else if dx_u > dx_l then .error errTowardsLE
      else
        let x := (val_l.2 - val_u.2 - val_l.1 * dx_l + val_u.1 * dx_u) / (dx_u - dx_l)
        let y := val_l.2 + dx_l * (x - val_l.1)
        recomputeCore K P fuel ((x, y) :: (s.spline.X ++ [(x, y)]))

/-- Descending sample grid `np.linspace(1, 0, m)`. -/
def linspaceDesc (m : ℕ) : List F :=
  (List.range m).map (fun i : ℕ => 1 - (i : F) / ((m : F) - 1))

/-- Method `roundTE`: validate `xCut`, blunt first if closed, build the
small connecting TE curve from its fixed control-point layout, split it
at its midpoint, sample both halves descending, and splice them around
the original boundary points before recomputing. -/
def roundTE (K : Kit F) (P : Params) (fuel : ℕ) (st : AirfoilState F)
    (xCut : F) (k : ℕ) (nPts : ℕ) (dist : F) : Except Err (AirfoilState F) :=
  if 1 ≤ xCut ∨ xCut ≤ 0 then .error errXCutRange
  else
    match bluntIfClosed K P fuel st xCut with
    | .error e => .error e
    | .ok s =>
      let dx := getTEThickness K s.spline * dist
      let t := List.replicate k (0 : F) ++ [1 / 2] ++ List.replicate k 1
      let v0 := s.spline.getValue 0
      let d0 := s.spline.getDerivative 0
      let ext0 : Pt F := (v0.1 + dx * (1 / 2), v0.2 + d0.2 / d0.1 * dx * (1 / 2))
      let v1 := s.spline.getValue 1
      let d1 := s.spline.getDerivative 1
      let ext1 : Pt F := (v1.1 + dx * (1 / 2), v1.2 + d1.2 / d1.1 * dx * (1 / 2))
      let chordU := pdivs (psub s.TE s.LE) (norm2 K (psub s.TE s.LE))
      let apex : Pt F := (s.TE.1 + chordU.1 * dx, s.TE.2 + chordU.2 * dx)
      let coeff := (List.range (k + 1)).map fun i =>
        if k = 4 ∧ i = 2 then apex
        else if i = k then v1
        else if i = k - 1 then ext1
        else if i = 1 then ext0
        else if i = 0 then v0
        else ((0 : F), (0 : F))
      let te_curve := K.fromCtl t k coeff
      let halves := K.splitCurve te_curve (1 / 2)
      let upper_pts := (linspaceDesc (F := F) (nPts / 2)).map halves.1.getValue
      let lower_pts := (linspaceDesc (F := F) (nPts / 2)).map halves.2.getValue
      recomputeCore K P fuel (upper_pts.dropLast ++ s.spline.X ++ lower_pts.drop 1)

/-- Segment test of `removeTE`: element `ii` starts past the chordwise
threshold and runs roughly perpendicular to the chord. -/
def isTESegment (K : Kit F) (st : AirfoilState F) (tol xtol : F) (coords : List (Pt F))
    (ii : ℕ) : Bool :=
  let chord_vec := psub st.TE st.LE
  let unit_chord := pdivs chord_vec (norm2 K chord_vec)
  let threshold := (padd st.LE (psmul xtol chord_vec)).1
  let a := coords.getD ii ((0 : F), (0 : F))
  let b := coords.getD (ii + 1) ((0 : F), (0 : F))
  let delta := psub b a
  let unit_delta := pdivs delta (norm2 K delta)
  decide (a.1 ≥ threshold) && decide (|pdot unit_chord unit_delta| < tol)

/-- Method `removeTE`: flag each consecutive segment past `xtol` whose
direction is nearly perpendicular to the chord, drop the point indices of
flagged segments (deduplicated, ascending), recompute from the kept
points, and return the removed points. -/
def removeTE (K : Kit F) (P : Params) (fuel : ℕ) (st : AirfoilState F) (tol xtol : F) :
    Except Err (AirfoilState F) × List (Pt F) :=
  let coords := st.spline.X
  let n := coords.length
  let isTE := isTESegment K st tol xtol coords
  let inAirfoilMask : ℕ → Bool := fun j =>
    (decide (j + 1 < n) && !isTE j) || (decide (1 ≤ j) && decide (j < n) && !isTE (j - 1))
  let inTEMask : ℕ → Bool := fun j =>
    (decide (j + 1 < n) && isTE j) || (decide (1 ≤ j) && decide (j < n) && isTE (j - 1))
  let kept := ((List.range n).filter inAirfoilMask).map fun j => coords.getD j ((0 : F), (0 : F))
  let removed := ((List.range n).filter inTEMask).map fun j => coords.getD j ((0 : F), (0 : F))
  (recomputeCore K P fuel kept, removed)

/-- Method `getSampledPts`: sample the boundary at the collaborator
spacing, optionally duplicate the last point as a TE knot, optionally add
interior blunt-TE points, close the loop by appending the first sampled
point when the curve is open, and store the result in the cache. -/
def getSampledPts (K : Kit F) (st : AirfoilState F) (nPts : ℕ) (nTEPts : ℕ)
    (TE_knot : Bool) : List (Pt F) × AirfoilState F :=
  let s := K.joinedSpacing nPts st.s_LE
  let sampled0 := s.map st.spline.getValue
  let sampled1 := if st.closedCurve = false ∧ TE_knot then
      sampled0 ++ [sampled0.getLastD ((0 : F), (0 : F))]
    else sampled0
  let sampled2 := if nTEPts ≠ 0 ∧ st.closedCurve = false then
      sampled1 ++ (List.range nTEPts).map fun i : ℕ =>
        padd (st.spline.getValue 1)
          (psmul (((i : F) + 1) / ((nTEPts : F) + 1))
            (psub (st.spline.getValue 0) (st.spline.getValue 1)))
    else sampled1
  let sampled3 := if st.closedCurve = false then
      sampled2 ++ [sampled2.headD ((0 : F), (0 : F))]
    else sampled2
  (sampled3, { st with sampled_pts := some sampled3 })

end Airfoil

/-- Holds of an operation result when any successfully produced state has
an empty sampled-points cache. -/
def clearsSampled : Except Err (AirfoilState F) → Prop
  | .ok st => st.sampled_pts = none
  | .error _ => True

/-- Constant curve used to build concrete witness kits. -/
def curveQ (X : List (Pt ℚ)) : Curve ℚ where
  X := X
  getValue := fun s => (s, 0)
  getDerivative := fun _ => (1, 0)
  getSecondDerivative := fun _ => (0, 0)

/-- A concrete, fully computable kit over the rationals: fitting returns
a curve holding the given points, projection returns 1/2, root-finding
the bracket midpoint, minimization succeeds at the initial point. -/
def kitQ : Kit ℚ where
  pi := 3
  cos := fun _ => 1
  sin := fun _ => 0
  arccos := fun _ => 0
  atan2 := fun _ _ => 0
  sqrt := fun x => x
  eps := 0
  fitInterp := fun _ X => curveQ X
  fitLMS := fun _ _ X => curveQ X
  fromCtl := fun _ _ coef => curveQ coef
  splitCurve := fun c _ => (c, c)
  projectCurve := fun _ _ _ _ _ => 1 / 2
  brentq := fun _ a b => (a + b) / 2
  minimize := fun _ _ x0 _ _ => ⟨true, x0⟩
  joinedSpacing := fun _ _ => [0, 1 / 2, 1]

/-- Spline order 4, interpolation fit, as in the Airfoil constructor
defaults. -/
def paramsQ : Params := ⟨4, none⟩

/-- Modelled from the spec: the chord direction, the unit vector from LE
to TE, which sits at angle `twist` (in degrees) by the definition of
twist as the `arctan2` of the TE-LE vector. -/
def chordDirSpec (K : Kit F) (twist : F) : Pt F :=
  (K.cos (deg2rad K twist), K.sin (deg2rad K twist))

/-- A planar point viewed in the Euclidean plane. -/
def euc2 (p : Pt ℝ) : EuclideanSpace ℝ (Fin 2) := ![p.1, p.2]

/-- A concrete state over the rationals (open/blunt trailing edge). -/
def stQ : AirfoilState ℚ where
  spline := curveQ [(0, 0), (1, 0)]
  TE := (1, 0)
  LE := (0, 0)
  s_LE := 1 / 2
  chord := 1
  twist := 0
  closedCurve := false
  sampled_pts := none
  camber := curveQ [(0, 0), (1, 0)]
  british_thickness := curveQ [(0, 0)]
  american_thickness := curveQ [(0, 0)]

/-- The same concrete state marked as closed (sharp trailing edge). -/
def stQclosed : AirfoilState ℚ := { stQ with closedCurve := true }

/-- A curve whose tangents at the two TE ends have equal slope. -/
def slopeCurveQ : Curve ℚ where
  X := [(0, 0), (1, 0)]
  getValue := fun s => (s, 0)
  getDerivative := fun _ => (1, 1)
  getSecondDerivative := fun _ => (0, 0)

/-- A blunt state whose TE tangent slopes at s=0 and s=1 coincide. -/
def stQpar : AirfoilState ℚ := { stQ with spline := slopeCurveQ }

/-- The computable kit with a minimizer that reports non-convergence. -/
def kitQfail : Kit ℚ := { kitQ with minimize := fun _ _ _ _ _ => ⟨false, 0⟩ }

/-- A kit whose curve projection lands on the far endpoint (parameter 1)
for the guess 1/4 and in the interior otherwise. -/
def kitC : Kit ℚ :=
  { kitQ with
    projectCurve := fun _ _ _ _ g =>
      match g with
      | some (a, _) => if a = 1 / 4 then 1 else 1 / 2
      | none => 1 / 2 }

/-- A constant curve over the reals used in witnesses. -/
def curveR : Curve ℝ where
  X := [(0, 0), (1, 0)]
  getValue := fun _ => (0, 0)
  getDerivative := fun _ => (1, 0)
  getSecondDerivative := fun _ => (0, 0)

/-- The kit over the reals whose numerical fields are the genuine real
functions, used to instantiate the trigonometric claims. -/
noncomputable def kitR : Kit ℝ where
  pi := Real.pi
  cos := Real.cos
  sin := Real.sin
  arccos := Real.arccos
  atan2 := fun _ _ => 0
  sqrt := Real.sqrt
  eps := 0
  fitInterp := fun _ X => { curveR with X := X }
  fitLMS := fun _ _ X => { curveR with X := X }
  fromCtl := fun _ _ coef => { curveR with X := coef }
  splitCurve := fun c _ => (c, c)
  projectCurve := fun _ _ _ _ _ => 1 / 2
  brentq := fun _ a b => (a + b) / 2
  minimize := fun _ _ x0 _ _ => ⟨true, x0⟩
  joinedSpacing := fun _ _ => [0, 1 / 2, 1]

/-!  Verification lemmas shared by the claim theorems.  -/

theorem linInterior_length (nPts : ℕ) :
    (linInterior (F := F) nPts).length = nPts - 2 := by
  rw [linInterior, List.length_map, List.length_range]

theorem shoelaceTerm_swap (p q : Pt F) : shoelaceTerm q p = -shoelaceTerm p q := by
  unfold shoelaceTerm; ring

theorem shoelaceTerm_self (p : Pt F) : shoelaceTerm p p = 0 := by
  unfold shoelaceTerm; ring

theorem pathSum_concat (y : Pt F) (m : List (Pt F)) :
    ∀ x : Pt F, pathSum x (m ++ [y]) = pathSum x m + shoelaceTerm (m.getLastD x) y := by
  induction m with
  | nil => intro x; simp [pathSum]
  | cons b m ih =>
      intro x
      simp only [List.cons_append, List.append_eq, pathSum, List.getLastD_cons]
      rw [ih b]
      ring

theorem pathSum_reverse_aux (m : List (Pt F)) :
    ∀ x y : Pt F,
      pathSum x m + shoelaceTerm (m.getLastD x) y
        = -(pathSum y m.reverse + shoelaceTerm (m.reverse.getLastD y) x) := by
  induction m with
  | nil =>
      intro x y
      simp only [pathSum, List.reverse_nil, List.getLastD_nil]
      rw [shoelaceTerm_swap y x]
      ring
  | cons b m ih =>
      intro x y
      have hrev : (b :: m).reverse = m.reverse ++ [b] := by simp
      rw [hrev, pathSum_concat, List.getLastD_concat]
      simp only [pathSum, List.getLastD_cons]
      have h := ih b y
      have hswap := shoelaceTerm_swap b x
      linarith [h, hswap]

/-- Reversing the coordinate rows negates the shoelace signed-area sum of
`Airfoil.reorder`. -/
theorem reorderArea_reverse (l : List (Pt F)) :
    reorderArea l.reverse = -reorderArea l := by
  rcases l with _ | ⟨a, t⟩
  · simp [reorderArea]
  rcases ht : t.reverse with _ | ⟨b, r⟩
  · have : t = [] := by
      have := congrArg List.reverse ht
      simpa using this
    subst this
    simp [reorderArea, pathSum, shoelaceTerm_self]
  · have htt : t = r.reverse ++ [b] := by
      have := congrArg List.reverse ht
      simpa using this
    have hlrev : (a :: t).reverse = b :: (r ++ [a]) := by
      rw [htt]; simp
    rw [hlrev]
    show pathSum ((r ++ [a]).getLastD b) (b :: (r ++ [a]))
        = -(pathSum (t.getLastD a) (a :: t))
    rw [List.getLastD_concat, htt, List.getLastD_concat]
    simp only [pathSum]
    rw [pathSum_concat, pathSum_concat]
    have h := pathSum_reverse_aux r b a
    have hswap := shoelaceTerm_swap b a
    linarith [h, hswap]


theorem deriveState_sampled_none (K : Kit F) (sp : Curve F) (cs : List (Pt F)) :
    (deriveState K sp cs).sampled_pts = none := rfl

theorem clearsSampled_recompute (K : Kit F) (P : Params) :
    ∀ (fuel : ℕ) (coords : List (Pt F)), clearsSampled (recomputeCore K P fuel coords) := by
  intro fuel
  induction fuel with
  | zero => intro coords; exact trivial
  | succ n ih =>
      intro coords
      simp only [recomputeCore]
      split
      · cases hrec : recomputeCore K P n (fitSpline K P coords).X.reverse with
        | error e => simp only [hrec]; exact trivial
        | ok stI => simp only [hrec]; exact deriveState_sampled_none K stI.spline coords
      · exact deriveState_sampled_none K (fitSpline K P coords) coords

theorem recomputeCore_error_fuel (K : Kit F) (P : Params) :
    ∀ (fuel : ℕ) (coords : List (Pt F)) (e : Err),
      recomputeCore K P fuel coords = .error e → e = Err.fuel := by
  intro fuel
  induction fuel with
  | zero =>
      intro coords e h
      simp only [recomputeCore] at h
      exact (Except.error.inj h).symm
  | succ n ih =>
      intro coords e h
      simp only [recomputeCore] at h
      split at h
      · cases hrec : recomputeCore K P n (fitSpline K P coords).X.reverse with
        | error e2 =>
            rw [hrec] at h
            simp only at h
            exact (Except.error.inj h) ▸ ih _ e2 hrec
        | ok stI => rw [hrec] at h; simp at h
      · simp at h

/-- C2: for every coordinate array, reversing the row order negates the
shoelace signed-area sum computed in `reorder`; consequently, whenever
the fit preserves the point set (as pyspline interpolation/LMS does), a
positive (clockwise) sum leads to exactly one orientation reversal: the
recursive `recompute` on the reversed array finds a non-positive sum and
does not recurse again, so `recompute` succeeds with any fuel allowing a
single correction. -/
theorem reorder_single_flip (K : Kit F) (P : Params) (coords : List (Pt F))
    (hfit : ∀ (k : ℕ) (X : List (Pt F)), (K.fitInterp k X).X = X)
    (hfitLMS : ∀ (k n : ℕ) (X : List (Pt F)), (K.fitLMS k n X).X = X) :
    reorderArea coords.reverse = -reorderArea coords ∧
      ∀ fuel : ℕ, recomputeCore K P (fuel + 1 + 1) coords ≠ Except.error Err.fuel := by
  have hX : ∀ cs : List (Pt F), (fitSpline K P cs).X = cs := by
    intro cs
    unfold fitSpline
    cases P.nCtl with
    | none => exact hfit _ _
    | some n => exact hfitLMS _ _ _
  refine ⟨reorderArea_reverse coords, ?_⟩
  intro fuel
  simp only [recomputeCore, hX]
  by_cases h1 : reorderArea coords > 0
  · rw [if_pos h1]
    have h2 : ¬ reorderArea coords.reverse > 0 := by
      rw [reorderArea_reverse]; linarith
    rw [if_neg h2]
    simp
  · rw [if_neg h1]; simp

theorem reorder_single_flip_witness :
    reorderArea ([((0 : ℚ), (0 : ℚ)), (0, 1), (1, 1), (1, 0)] : List (Pt ℚ)).reverse
        = -reorderArea ([((0 : ℚ), (0 : ℚ)), (0, 1), (1, 1), (1, 0)] : List (Pt ℚ)) ∧
      ∀ fuel : ℕ,
        recomputeCore kitQ paramsQ (fuel + 1 + 1)
            ([((0 : ℚ), (0 : ℚ)), (0, 1), (1, 1), (1, 0)] : List (Pt ℚ))
          ≠ Except.error Err.fuel :=
  reorder_single_flip kitQ paramsQ _ (fun _ _ => rfl) (fun _ _ _ => rfl)

/-- C5: every geometry-changing public operation (rotate, scale,
translate, makeBluntTE, sharpenTE, roundTE, removeTE) funnels into
`recompute`, and `recompute` clears the sampled-points cache, so any
state those operations produce has an empty cache; the cache is
populated (with exactly the returned coordinates) only by an explicit
`getSampledPts` call. -/
theorem mutations_clear_cache (K : Kit F) (P : Params) (fuel : ℕ) (st : AirfoilState F)
    (coords : List (Pt F)) (angle factor xCut tg bg dist tol xtol : F)
    (origin delta : Pt F) (k nRound nSampled nTEPts : ℕ) (TE_knot : Bool) :
    clearsSampled (recomputeCore K P fuel coords) ∧
    clearsSampled (Airfoil.rotate K P fuel st angle origin) ∧
    clearsSampled (Airfoil.scale K P fuel st factor origin) ∧
    clearsSampled (Airfoil.translate K P fuel st delta) ∧
    clearsSampled (Airfoil.makeBluntTE K P fuel st xCut tg bg).2 ∧
    clearsSampled (Airfoil.sharpenTE K P fuel st xCut) ∧
    clearsSampled (Airfoil.roundTE K P fuel st xCut k nRound dist) ∧
    clearsSampled (Airfoil.removeTE K P fuel st tol xtol).1 ∧
    (Airfoil.getSampledPts K st nSampled nTEPts TE_knot).2.sampled_pts
      = some (Airfoil.getSampledPts K st nSampled nTEPts TE_knot).1 := by
  refine ⟨clearsSampled_recompute K P fuel coords,
    clearsSampled_recompute K P fuel _,
    clearsSampled_recompute K P fuel _,
    clearsSampled_recompute K P fuel _,
    clearsSampled_recompute K P fuel _,
    ?_, ?_, clearsSampled_recompute K P fuel _, rfl⟩
  · unfold Airfoil.sharpenTE
    split
    · exact trivial
    · split
      · exact trivial
      · dsimp only
        split
        · exact trivial
        · split
          · exact trivial
          · exact clearsSampled_recompute K P fuel _
  · unfold Airfoil.roundTE
    split
    · exact trivial
    · split
      · exact trivial
      · exact clearsSampled_recompute K P fuel _

/-- C1: contrary to the claim, the ray direction of the "british" branch
of `getThickness` (angle `pi/2 - twist`) is NOT perpendicular to the
chord direction (the unit vector at angle `twist`): their dot product is
`sin (2 * twist-in-radians)`, which equals 1 (ray parallel to the chord)
at twist = 45 degrees.  The chord-normal direction used elsewhere
(`getCDistribution`, `makeBluntTE`, angle `pi/2 + twist`) is genuinely
perpendicular, exhibiting the sign slip.  The direction is, however, the
same for every sample index, as the claim says. -/
theorem british_ray_not_chord_normal (K : Kit ℝ) (hcos : K.cos = Real.cos)
    (hsin : K.sin = Real.sin) (hpi : K.pi = Real.pi) :
    (∀ twist : ℝ, pdot (britishRayDirection K twist) (chordDirSpec K twist)
        = Real.sin (2 * (twist * Real.pi / 180))) ∧
    pdot (britishRayDirection K 45) (chordDirSpec K 45) = 1 ∧
    (∀ twist : ℝ, pdot (chordNormalDirection K twist) (chordDirSpec K twist) = 0) := by
  have key : ∀ twist : ℝ, pdot (britishRayDirection K twist) (chordDirSpec K twist)
      = Real.sin (2 * (twist * Real.pi / 180)) := by
    intro t
    simp only [britishRayDirection, chordDirSpec, pdot, deg2rad, hcos, hsin, hpi]
    rw [Real.cos_pi_div_two_sub, Real.sin_pi_div_two_sub, Real.sin_two_mul]
    ring
  refine ⟨key, ?_, ?_⟩
  · rw [key 45]
    have h45 : 2 * ((45 : ℝ) * Real.pi / 180) = Real.pi / 2 := by ring
    rw [h45, Real.sin_pi_div_two]
  · intro t
    simp only [chordNormalDirection, chordDirSpec, pdot, deg2rad, hcos, hsin, hpi]
    rw [Real.cos_add, Real.sin_add, Real.cos_pi_div_two, Real.sin_pi_div_two]
    ring

theorem british_ray_not_chord_normal_witness :
    kitR.cos = Real.cos ∧ kitR.sin = Real.sin ∧ kitR.pi = Real.pi ∧
      pdot (britishRayDirection kitR 45) (chordDirSpec kitR 45) = 1 :=
  ⟨rfl, rfl, rfl, (british_ray_not_chord_normal kitR rfl rfl rfl).2.1⟩

/-- C3: for every nPts at least 2, `getCDistribution` returns exactly
nPts points starting at LE and ending at TE (nPts - 2 interior camber
points), and `getThickness` (for a valid thickness type) returns exactly
nPts points starting at (LE.x, 0) and ending at (TE.x, TE thickness). -/
theorem distribution_counts_and_endpoints (K : Kit F) (st : AirfoilState F) (nPts : ℕ)
    (h2 : 2 ≤ nPts) (tType : String) (ht : tType = "american" ∨ tType = "british") :
    (Airfoil.getCDistribution K st nPts).length = nPts ∧
    (Airfoil.getCDistribution K st nPts).head? = some st.LE ∧
    (Airfoil.getCDistribution K st nPts).getLast? = some st.TE ∧
    ∃ l : List (Pt F), Airfoil.getThickness K st nPts tType = .ok l ∧
      l.length = nPts ∧ l.head? = some (st.LE.1, 0) ∧
      l.getLast? = some (st.TE.1, getTEThickness K st.spline) := by
  have hnot : ¬(tType ≠ "american" ∧ tType ≠ "british") := by
    rcases ht with h | h <;> simp [h]
  refine ⟨?_, rfl, ?_, ⟨thicknessList K st.spline st.s_LE st.LE st.TE st.camber
      st.chord st.twist nPts tType, ?_, ?_, rfl, ?_⟩⟩
  · simp only [Airfoil.getCDistribution, getCDistribution, List.length_cons,
      List.length_append, List.length_map, linInterior_length, List.length_singleton,
      List.length_nil]
    omega
  · show (st.LE :: (_ ++ [st.TE])).getLast? = some st.TE
    rw [← List.cons_append, List.getLast?_concat]
  · simp only [Airfoil.getThickness, if_neg hnot]
  · simp only [thicknessList, List.length_cons, List.length_append,
      List.length_map, linInterior_length, List.length_singleton, List.length_nil]
    omega
  · show ((st.LE.1, (0 : F)) :: (_ ++ [(st.TE.1, getTEThickness K st.spline)])).getLast?
        = some (st.TE.1, getTEThickness K st.spline)
    rw [← List.cons_append, List.getLast?_concat]

theorem distribution_counts_and_endpoints_witness :
    2 ≤ 5 ∧ (("british" : String) = "american" ∨ ("british" : String) = "british") ∧
    ((Airfoil.getCDistribution kitQ stQ 5).length = 5 ∧
      (Airfoil.getCDistribution kitQ stQ 5).head? = some stQ.LE ∧
      (Airfoil.getCDistribution kitQ stQ 5).getLast? = some stQ.TE ∧
      ∃ l : List (Pt ℚ), Airfoil.getThickness kitQ stQ 5 "british" = .ok l ∧
        l.length = 5 ∧ l.head? = some (stQ.LE.1, 0) ∧
        l.getLast? = some (stQ.TE.1, getTEThickness kitQ stQ.spline)) :=
  ⟨by decide, Or.inr rfl,
    distribution_counts_and_endpoints kitQ stQ 5 (by decide) "british" (Or.inr rfl)⟩

theorem bluntIfClosed_error_fuel (K : Kit F) (P : Params) (fuel : ℕ) (st : AirfoilState F)
    (xCut : F) (e : Err) (h : Airfoil.bluntIfClosed K P fuel st xCut = .error e) :
    e = Err.fuel := by
  unfold Airfoil.bluntIfClosed at h
  split at h
  · exact recomputeCore_error_fuel K P fuel _ e h
  · simp at h

/-- C4: `sharpenTE` raises the xCut-range error exactly when xCut is at
least 1 or at most 0 (this check precedes the optional blunting step and
the final recompute, so no state is rebuilt on that path: the result is
the bare error); for in-range xCut, once the optional blunting step has
produced the working state, equal TE slopes raise the parallel-slopes
error and an upper slope exceeding the lower slope raises the
towards-LE-intersection error. -/
theorem sharpenTE_error_conditions (K : Kit F) (P : Params) (fuel : ℕ)
    (st : AirfoilState F) (xCut : F) :
    (Airfoil.sharpenTE K P fuel st xCut = .error errXCutRange ↔ 1 ≤ xCut ∨ xCut ≤ 0) ∧
    (∀ s : AirfoilState F, ¬(1 ≤ xCut ∨ xCut ≤ 0) →
      Airfoil.bluntIfClosed K P fuel st xCut = .ok s →
      Airfoil.teSlopeTop s = Airfoil.teSlopeBottom s →
      Airfoil.sharpenTE K P fuel st xCut = .error errParallelSlopes) ∧
    (∀ s : AirfoilState F, ¬(1 ≤ xCut ∨ xCut ≤ 0) →
      Airfoil.bluntIfClosed K P fuel st xCut = .ok s →
      Airfoil.teSlopeBottom s < Airfoil.teSlopeTop s →
      Airfoil.sharpenTE K P fuel st xCut = .error errTowardsLE) := by
  refine ⟨⟨?_, ?_⟩, ?_, ?_⟩
  · intro h
    by_contra hc
    unfold Airfoil.sharpenTE at h
    rw [if_neg hc] at h
    cases hb : Airfoil.bluntIfClosed K P fuel st xCut with
    | error e =>
        rw [hb] at h
        simp only at h
        have hfuel := bluntIfClosed_error_fuel K P fuel st xCut e hb
        rw [hfuel] at h
        exact absurd (Except.error.inj h) (by decide)
    | ok s =>
        rw [hb] at h
        dsimp only at h
        split at h
        · exact absurd (Except.error.inj h) (by decide)
        · split at h
          · exact absurd (Except.error.inj h) (by decide)
          · have hfuel := recomputeCore_error_fuel K P fuel _ _ h
            exact absurd hfuel.symm (by decide)
  · intro hrange
    unfold Airfoil.sharpenTE
    rw [if_pos hrange]
  · intro s hc hb heq
    unfold Airfoil.sharpenTE
    rw [if_neg hc, hb]
    dsimp only
    rw [if_pos heq]
  · intro s hc hb hlt
    unfold Airfoil.sharpenTE
    rw [if_neg hc, hb]
    dsimp only
    rw [if_neg (ne_of_gt hlt), if_pos hlt]

theorem sharpenTE_error_conditions_witness :
    ¬((1 : ℚ) ≤ 1 / 2 ∨ (1 / 2 : ℚ) ≤ 0) ∧
    Airfoil.bluntIfClosed kitQ paramsQ 2 stQpar (1 / 2) = .ok stQpar ∧
    Airfoil.teSlopeTop stQpar = Airfoil.teSlopeBottom stQpar ∧
    Airfoil.sharpenTE kitQ paramsQ 2 stQpar (1 / 2) = .error errParallelSlopes :=
  ⟨by norm_num, rfl, rfl,
    (sharpenTE_error_conditions kitQ paramsQ 2 stQpar (1 / 2)).2.1 stQpar
      (by norm_num) rfl rfl⟩

/-- C6 counterexample: `makeBluntTE` does not warn whenever a projected
cut intersection falls at an endpoint of its surface half-curve.  With a
projection that converges to parameter 1 on the top half (an endpoint of
that half-curve) and to 1/2 on the bottom half, no warning is emitted:
the code only tests `s_top == 0.0` on the top half (and `s_bottom == 1.0`
on the bottom half), not the opposite endpoints. -/
theorem makeBluntTE_endpoint_without_warning :
    (Airfoil.bluntData kitC stQ (49 / 50) (1 / 4) (3 / 4)).1.1 = 1 ∧
    (Airfoil.makeBluntTE kitC paramsQ 2 stQ (49 / 50) (1 / 4) (3 / 4)).1 = [] := by
  constructor
  · show (if (1 / 4 : ℚ) = 1 / 4 then (1 : ℚ) else 1 / 2) = 1
    rw [if_pos rfl]
  · show ((if (if (1 / 4 : ℚ) = 1 / 4 then (1 : ℚ) else 1 / 2) = 0 then [Warn.topNotCut] else []) ++
        (if (if (3 / 4 : ℚ) = 1 / 4 then (1 : ℚ) else 1 / 2) = 1 then [Warn.bottomNotCut] else []))
      = []
    rw [if_pos (rfl : (1 / 4 : ℚ) = 1 / 4), if_neg (by norm_num : ¬(3 / 4 : ℚ) = 1 / 4)]
    rw [if_neg (by norm_num : ¬(1 : ℚ) = 0), if_neg (by norm_num : ¬(1 / 2 : ℚ) = 1)]
    rfl

/-- C6 amended: `makeBluntTE` emits the top (resp. bottom) non-fatal
warning exactly when the projected top intersection parameter is 0
(resp. the bottom intersection parameter is 1) -- the trailing-edge-side
endpoint of the corresponding half-curve -- and the operation always
completes by recomputing from the assembled coordinates, whatever the
projections returned. -/
theorem makeBluntTE_warning_iff (K : Kit F) (P : Params) (fuel : ℕ)
    (st : AirfoilState F) (xCut tg bg : F) :
    (Warn.topNotCut ∈ (Airfoil.makeBluntTE K P fuel st xCut tg bg).1 ↔
      (Airfoil.bluntData K st xCut tg bg).1.1 = 0) ∧
    (Warn.bottomNotCut ∈ (Airfoil.makeBluntTE K P fuel st xCut tg bg).1 ↔
      (Airfoil.bluntData K st xCut tg bg).1.2 = 1) ∧
    (Airfoil.makeBluntTE K P fuel st xCut tg bg).2
      = recomputeCore K P fuel (Airfoil.bluntData K st xCut tg bg).2 := by
  unfold Airfoil.makeBluntTE
  refine ⟨?_, ?_, rfl⟩ <;>
    by_cases h1 : (Airfoil.bluntData K st xCut tg bg).1.1 = 0 <;>
    by_cases h2 : (Airfoil.bluntData K st xCut tg bg).1.2 = 1 <;>
    simp [h1, h2]

theorem midpoint_prod_eq (v w : Pt ℝ) :
    midpoint ℝ v w = ((v.1 + w.1) / 2, (v.2 + w.2) / 2) := by
  rw [midpoint_eq_smul_add]
  ext <;> simp [Prod.smul_def] <;> ring

theorem euc2_dist (p q : Pt ℝ) :
    dist (euc2 p) (euc2 q) = Real.sqrt ((p.1 - q.1) ^ 2 + (p.2 - q.2) ^ 2) := by
  rw [EuclideanSpace.dist_eq]
  congr 1
  rw [Fin.sum_univ_two]
  simp [euc2, Real.dist_eq, sq_abs]

/-- C7: `getTE` is the midpoint of the boundary-curve values at s=0 and
s=1, and `getTEThickness` is the Euclidean distance between those two
values -- in particular zero for a closed (sharp) airfoil whose s=0 and
s=1 endpoints coincide. -/
theorem getTE_midpoint_and_thickness_distance (K : Kit ℝ) (hsqrt : K.sqrt = Real.sqrt)
    (spline : Curve ℝ) :
    getTE spline = midpoint ℝ (spline.getValue 0) (spline.getValue 1) ∧
    getTEThickness K spline = dist (euc2 (spline.getValue 0)) (euc2 (spline.getValue 1)) ∧
    (spline.getValue 0 = spline.getValue 1 → getTEThickness K spline = 0) := by
  have hthick : getTEThickness K spline
      = dist (euc2 (spline.getValue 0)) (euc2 (spline.getValue 1)) := by
    rw [euc2_dist]
    simp only [getTEThickness, hsqrt]
  refine ⟨?_, hthick, ?_⟩
  · rw [midpoint_prod_eq]
    rfl
  · intro h
    rw [hthick, h, dist_self]

theorem getTE_midpoint_and_thickness_distance_witness :
    kitR.sqrt = Real.sqrt ∧
    curveR.getValue 0 = curveR.getValue 1 ∧
    (getTE curveR = midpoint ℝ (curveR.getValue 0) (curveR.getValue 1) ∧
      getTEThickness kitR curveR
        = dist (euc2 (curveR.getValue 0)) (euc2 (curveR.getValue 1)) ∧
      getTEThickness kitR curveR = 0) := by
  have h := getTE_midpoint_and_thickness_distance kitR rfl curveR
  exact ⟨rfl, rfl, h.1, h.2.1, h.2.2 rfl⟩

/-- C8: `getTEAngle` equals pi minus the arccos of the dot product of
the two unit tangents at s=0 and s=1, converted to degrees, and since
arccos ranges over [0, pi] the returned angle lies in [0, 180] degrees
for every profile. -/
theorem getTEAngle_in_range (K : Kit ℝ) (harccos : K.arccos = Real.arccos)
    (hpi : K.pi = Real.pi) (spline : Curve ℝ) :
    getTEAngle K spline
      = rad2deg K (K.pi - K.arccos (pdot
          (pdivs (spline.getDerivative 0) (norm2 K (spline.getDerivative 0)))
          (pdivs (spline.getDerivative 1) (norm2 K (spline.getDerivative 1))))) ∧
    0 ≤ getTEAngle K spline ∧ getTEAngle K spline ≤ 180 := by
  refine ⟨rfl, ?_⟩
  unfold getTEAngle rad2deg
  dsimp only
  rw [harccos, hpi]
  set d := pdot (pdivs (spline.getDerivative 0) (norm2 K (spline.getDerivative 0)))
    (pdivs (spline.getDerivative 1) (norm2 K (spline.getDerivative 1))) with hd
  have h0 : 0 ≤ Real.arccos d := Real.arccos_nonneg d
  have h1 : Real.arccos d ≤ Real.pi := Real.arccos_le_pi d
  have hπ : 0 < Real.pi := Real.pi_pos
  constructor
  · apply div_nonneg _ (le_of_lt hπ)
    have : 0 ≤ Real.pi - Real.arccos d := by linarith
    nlinarith
  · rw [div_le_iff₀ hπ]
    nlinarith

theorem getTEAngle_in_range_witness :
    kitR.arccos = Real.arccos ∧ kitR.pi = Real.pi ∧
    (getTEAngle kitR curveR
      = rad2deg kitR (kitR.pi - kitR.arccos (pdot
          (pdivs (curveR.getDerivative 0) (norm2 kitR (curveR.getDerivative 0)))
          (pdivs (curveR.getDerivative 1) (norm2 kitR (curveR.getDerivative 1))))) ∧
      0 ≤ getTEAngle kitR curveR ∧ getTEAngle kitR curveR ≤ 180) :=
  ⟨rfl, rfl, getTEAngle_in_range kitR rfl rfl curveR⟩

/-- C9: for every thickness-type keyword outside american/british, both
`getMaxThickness` and `getThickness` return the invalid-parameter error
(the keyword check is the first step of both, before any computation:
the result is the bare error, independent of the curves and of the
optimizer); and when the bounded minimizer reports failure,
`getMaxThickness` returns the could-not-determine error rather than any
value. -/
theorem thickness_type_and_convergence_errors (K : Kit F) (st : AirfoilState F)
    (nPts : ℕ) (tType : String) :
    (tType ≠ "american" → tType ≠ "british" →
      Airfoil.getMaxThickness K st tType = .error errInvalidType ∧
      Airfoil.getThickness K st nPts tType = .error errInvalidType) ∧
    ((K.minimize "SLSQP" (Airfoil.americanObj st) (1 / 2)
        (some (Airfoil.americanJac st)) [(0, 1)]).success = false →
      Airfoil.getMaxThickness K st "american" = .error errNoMaxThickness) ∧
    ((K.minimize "SLSQP" (Airfoil.britishObj st) (1 / 2)
        (some (Airfoil.britishJac st)) [(0, 1)]).success = false →
      Airfoil.getMaxThickness K st "british" = .error errNoMaxThickness) := by
  refine ⟨?_, ?_, ?_⟩
  · intro ha hb
    constructor
    · unfold Airfoil.getMaxThickness
      rw [if_pos ⟨ha, hb⟩]
    · unfold Airfoil.getThickness
      rw [if_pos ⟨ha, hb⟩]
  · intro hfail
    unfold Airfoil.getMaxThickness
    rw [if_neg (by simp), if_pos rfl]
    dsimp only
    rw [if_pos hfail]
  · intro hfail
    unfold Airfoil.getMaxThickness
    rw [if_neg (by simp), if_neg (by decide)]
    dsimp only
    rw [if_pos hfail]

theorem thickness_type_and_convergence_errors_witness :
    ("chungus" ≠ "american" ∧ "chungus" ≠ "british") ∧
    (Airfoil.getMaxThickness kitQ stQ "chungus" = .error errInvalidType ∧
      Airfoil.getThickness kitQ stQ 5 "chungus" = .error errInvalidType) ∧
    (kitQfail.minimize "SLSQP" (Airfoil.britishObj stQ) (1 / 2)
        (some (Airfoil.britishJac stQ)) [(0, 1)]).success = false ∧
    Airfoil.getMaxThickness kitQfail stQ "british" = .error errNoMaxThickness :=
  ⟨⟨by decide, by decide⟩,
    (thickness_type_and_convergence_errors kitQ stQ 5 "chungus").1 (by decide) (by decide),
    rfl,
    (thickness_type_and_convergence_errors kitQfail stQ 5 "british").2.2 rfl⟩

/-- C10: for a non-closed (blunt) state, `getSampledPts` ends with an
exact copy of its own first point (the loop is explicitly closed by
appending the head of the sampled array), while for a closed state the
`nTEPts` and `TE_knot` arguments have no effect at all on the result. -/
theorem getSampledPts_closure (K : Kit F) (st : AirfoilState F) (nPts nTEPts : ℕ)
    (TE_knot : Bool) :
    (st.closedCurve = false → K.joinedSpacing nPts st.s_LE ≠ [] →
      (Airfoil.getSampledPts K st nPts nTEPts TE_knot).1.getLast?
        = (Airfoil.getSampledPts K st nPts nTEPts TE_knot).1.head?) ∧
    (st.closedCurve = true →
      Airfoil.getSampledPts K st nPts nTEPts TE_knot
        = Airfoil.getSampledPts K st nPts 0 false) := by
  constructor
  · intro hopen hne
    obtain ⟨a, t, hb⟩ : ∃ a t, (K.joinedSpacing nPts st.s_LE).map st.spline.getValue
        = a :: t := by
      cases hc : (K.joinedSpacing nPts st.s_LE).map st.spline.getValue with
      | nil => exact absurd (List.map_eq_nil_iff.mp hc) hne
      | cons a t => exact ⟨a, t, rfl⟩
    unfold Airfoil.getSampledPts
    rw [hopen]
    dsimp only
    rw [hb]
    by_cases hk : TE_knot <;> by_cases hn0 : nTEPts = 0 <;>
      simp only [hk, hn0, eq_self_iff_true, true_and, and_true, and_false, ne_eq,
        not_true_eq_false, not_false_eq_true, if_true, if_false, ite_true, ite_false,
        List.cons_append, List.headD_cons] <;>
      rw [← List.cons_append, List.getLast?_concat] <;> rfl
  · intro hclosed
    unfold Airfoil.getSampledPts
    rw [hclosed]
    simp

theorem getSampledPts_closure_witness :
    stQ.closedCurve = false ∧ kitQ.joinedSpacing 5 stQ.s_LE ≠ [] ∧
    ((Airfoil.getSampledPts kitQ stQ 5 2 true).1.getLast?
      = (Airfoil.getSampledPts kitQ stQ 5 2 true).1.head?) ∧
    stQclosed.closedCurve = true ∧
    Airfoil.getSampledPts kitQ stQclosed 5 2 true
      = Airfoil.getSampledPts kitQ stQclosed 5 0 false :=
  ⟨rfl, by decide, (getSampledPts_closure kitQ stQ 5 2 true).1 rfl (by decide),
    rfl, (getSampledPts_closure kitQ stQclosed 5 2 true).2 rfl⟩

end Prefoil
